import Mathlib

/-!
Shallow embedding of the `sysdiagram` Rust crate's binary decoders
(`src/parser.rs`, `src/dtyp.rs`, `src/dsref.rs`, `src/mdtdb.rs`, `src/dds.rs`,
`src/lib.rs`) and proofs about them.

Byte streams are `List UInt8`. A nom `IResult` is modelled by `PResult`:
`ok rest value` for `Ok((rest, value))`, `fail` for any `Err(..)` (nom
`Error`/`Failure`/`Incomplete` are not distinguished, since no claim needs
the distinction), and `panicked` for a Rust panic (`assert_eq!`, `todo!`,
`unimplemented!`), which aborts the process rather than returning an error.

Machine integers are `Nat`; u32/u64 wrap-around is written explicitly with
`% 2 ^ 32` / `% 2 ^ 64` where the Rust code can overflow (release-profile
wrapping semantics).
-/

namespace Sysdiagram

/-- Bytes of the input stream, as in the Rust byte slices. -/
abbrev Bytes := List UInt8

/-- Outcome of a nom-style parser call: success with remaining input, a nom
error of any kind, or a Rust panic. -/
inductive PResult (α : Type) where
  | ok (rest : Bytes) (value : α)
  | fail
  | panicked
deriving Repr, DecidableEq

/-- Sequencing of parser outcomes, mirroring the `?` operator on `IResult`. -/
def PResult.bind {α β : Type} : PResult α → (Bytes → α → PResult β) → PResult β
  | .ok r v, f => f r v
  | .fail, _ => .fail
  | .panicked, _ => .panicked

@[simp]
theorem PResult.bind_ok {α β : Type} (r : Bytes) (v : α) (f : Bytes → α → PResult β) :
    PResult.bind (.ok r v) f = f r v := rfl

@[simp]
theorem PResult.bind_fail {α β : Type} (f : Bytes → α → PResult β) :
    PResult.bind (.fail : PResult α) f = .fail := rfl

@[simp]
theorem PResult.bind_panicked {α β : Type} (f : Bytes → α → PResult β) :
    PResult.bind (.panicked : PResult α) f = .panicked := rfl

/-- Parsers over a byte stream. -/
abbrev Parser (α : Type) := Bytes → PResult α

/-- Boolean prefix test used to model nom `tag` and string `tag`. -/
def startsWithL {α : Type} [DecidableEq α] : List α → List α → Bool
  | [], _ => true
  | _ :: _, [] => false
  | x :: xs, y :: ys => decide (x = y) && startsWithL xs ys

@[simp]
theorem startsWithL_nil {α : Type} [DecidableEq α] (s : List α) :
    startsWithL [] s = true := rfl

theorem startsWithL_cons {α : Type} [DecidableEq α] (x y : α) (xs ys : List α) :
    startsWithL (x :: xs) (y :: ys) = (decide (x = y) && startsWithL xs ys) := rfl

/-- Value of two bytes as a little-endian u16. -/
def leVal16 (b0 b1 : UInt8) : Nat := b0.toNat + 256 * b1.toNat

/-- Value of four bytes as a little-endian u32. -/
def leVal32 (b0 b1 b2 b3 : UInt8) : Nat :=
  b0.toNat + 256 * b1.toNat + 65536 * b2.toNat + 16777216 * b3.toNat

/-- Model of `nom::bytes::complete::take(n)`. -/
def takeN (n : Nat) : Parser Bytes := fun input =>
  if n ≤ input.length then .ok (input.drop n) (input.take n) else .fail

theorem takeN_fail {n : Nat} {input : Bytes} (h : ¬ n ≤ input.length) :
    takeN n input = .fail := if_neg h

/-- Model of `nom::bytes::complete::tag(p)` on byte input. -/
def tagBytes (p : Bytes) : Parser Bytes := fun input =>
  if startsWithL p input then .ok (input.drop p.length) p else .fail

/-- Model of `nom::number::complete::le_u8`. -/
def le_u8 : Parser Nat
  | b :: r => .ok r b.toNat
  | [] => .fail

/-- Model of `nom::number::complete::le_u16` (also used for `le_i16`). -/
def le_u16 : Parser Nat
  | b0 :: b1 :: r => .ok r (leVal16 b0 b1)
  | _ => .fail

/-- Model of `nom::number::complete::le_u32` (also used for `le_i32`,
reading the raw 32-bit pattern). -/
def le_u32 : Parser Nat
  | b0 :: b1 :: b2 :: b3 :: r => .ok r (leVal32 b0 b1 b2 b3)
  | _ => .fail

/-- Model of `nom::number::complete::le_u64`. -/
def le_u64 : Parser Nat
  | b0 :: b1 :: b2 :: b3 :: b4 :: b5 :: b6 :: b7 :: r =>
    .ok r (leVal32 b0 b1 b2 b3 + 4294967296 * leVal32 b4 b5 b6 b7)
  | _ => .fail

/-- Model of `nom::multi::count(p, n)`. -/
def countP {α : Type} (p : Parser α) : Nat → Parser (List α)
  | 0 => fun input => .ok input []
  | n + 1 => fun input =>
    (p input).bind fun r v =>
      ((countP p n) r).bind fun r2 vs => .ok r2 (v :: vs)

/-- A successful `count(p, n)` returns exactly `n` items. -/
theorem countP_length {α : Type} (p : Parser α) (n : Nat) (input rest : Bytes)
    (l : List α) (h : countP p n input = .ok rest l) : l.length = n := by
  induction n generalizing input rest l with
  | zero =>
    simp only [countP] at h
    cases h
    rfl
  | succ n ih =>
    simp only [countP] at h
    cases hp : p input with
    | ok r v =>
      rw [hp] at h
      simp only [PResult.bind_ok] at h
      cases hc : countP p n r with
      | ok r2 vs =>
        rw [hc] at h
        simp only [PResult.bind_ok] at h
        have hlen := ih r r2 vs hc
        cases h
        simp [hlen]
      | fail => rw [hc] at h; simp [PResult.bind] at h
      | panicked => rw [hc] at h; simp [PResult.bind] at h
    | fail => rw [hp] at h; simp [PResult.bind] at h
    | panicked => rw [hp] at h; simp [PResult.bind] at h

/-- Model of `nom::multi::length_count(le_u32, p)`. -/
def length_count_u32 {α : Type} (p : Parser α) : Parser (List α) := fun input =>
  (le_u32 input).bind fun r n => countP p n r

/-- Model of `nom::multi::length_value(le_u32, g)`: read a u32 length, slice
that many bytes, run `g` on the slice and discard the slice's leftovers. -/
def length_value_u32 {α : Type} (g : Parser α) : Parser α := fun input =>
  (le_u32 input).bind fun r n =>
    (takeN n r).bind fun r2 sub =>
      (g sub).bind fun _ v => .ok r2 v

/-- UTF-16LE code units from bytes; an odd trailing byte is an error
(strict decoding), as in `encoding::all::UTF_16LE` with `DecoderTrap::Strict`. -/
def utf16Units : Bytes → Option (List Nat)
  | [] => some []
  | b0 :: b1 :: r => (utf16Units r).map (leVal16 b0 b1 :: ·)
  | [_] => none

/-- Combine UTF-16 code units into scalar values, rejecting unpaired
surrogates (strict decoding). -/
def utf16Scalars : List Nat → Option (List Nat)
  | [] => some []
  | u :: r =>
    if 0xD800 ≤ u ∧ u ≤ 0xDBFF then
      match r with
      | v :: r2 =>
        if 0xDC00 ≤ v ∧ v ≤ 0xDFFF then
          (utf16Scalars r2).map ((0x10000 + (u - 0xD800) * 0x400 + (v - 0xDC00)) :: ·)
        else none
      | [] => none
    else if 0xDC00 ≤ u ∧ u ≤ 0xDFFF then none
    else (utf16Scalars r).map (u :: ·)

/-- A decoded Rust `String`, as its sequence of code points. -/
abbrev RString := List Nat

/-- Model of `decode_utf16` (src/parser.rs): strict UTF-16LE decoding. -/
def decode_utf16 (bs : Bytes) : Option RString :=
  (utf16Units bs).bind utf16Scalars

/-- Model of `parse_wstring_nt` (src/parser.rs): scan 16-bit units until a
0x0000 terminator, then decode everything before the terminator. Returns the
consumed region split off from the rest. -/
def scanNT : Bytes → Option (Bytes × Bytes)
  | 0x00 :: 0x00 :: rest => some ([], rest)
  | b0 :: b1 :: rest => (scanNT rest).map fun x => (b0 :: b1 :: x.1, x.2)
  | _ => none

/-- Model of `parse_wstring_nt` (src/parser.rs). -/
def parse_wstring_nt : Parser RString := fun input =>
  match scanNT input with
  | some (body, rest) =>
    match decode_utf16 body with
    | some s => .ok rest s
    | none => .fail
  | none => .fail

/-- Model of `parse_u32_bytes_wstring_nt` (src/parser.rs:32-41): u32 byte
count (including the 2-byte terminator), then `take(len - 2)` — a wrapping
u32 subtraction — then UTF-16 decode, then the 2-byte terminator tag. -/
def parse_u32_bytes_wstring_nt : Parser RString := fun input =>
  (le_u32 input).bind fun r len =>
    ((takeN ((len + (2 ^ 32 - 2)) % 2 ^ 32)) r).bind fun r2 bytes =>
      match decode_utf16 bytes with
      | some s => (tagBytes [0x00, 0x00] r2).bind fun r3 _ => .ok r3 s
      | none => .fail

/-- Model of `parse_u32_wstring_nt` (src/parser.rs:43-48): u32 character
count (including terminator), `take(len * 2 - 2)` with wrapping u32
arithmetic, UTF-16 decode, then the terminator tag. -/
def parse_u32_wstring_nt : Parser RString := fun input =>
  (le_u32 input).bind fun r len =>
    ((takeN ((len * 2 + (2 ^ 32 - 2)) % 2 ^ 32)) r).bind fun r2 bytes =>
      match decode_utf16 bytes with
      | some s => (tagBytes [0x00, 0x00] r2).bind fun r3 _ => .ok r3 s
      | none => .fail

/-- Model of `parse_u16_wstring` (src/parser.rs:50-57): u16 character count,
`take(len << 1)` (no overflow: usize arithmetic), UTF-16 decode, no
terminator. -/
def parse_u16_wstring : Parser RString := fun input =>
  (le_u16 input).bind fun r len =>
    ((takeN (len * 2)) r).bind fun r2 bytes =>
      match decode_utf16 bytes with
      | some s => .ok r2 s
      | none => .fail

/-- GUID value in the mixed-endian wire layout read by the external
`ms_oforms::common::parse_guid` collaborator: a little-endian u32, two
little-endian u16s, and eight raw bytes. -/
structure Uuid where
  d1 : Nat
  d2 : Nat
  d3 : Nat
  d4 : Bytes
deriving Repr, DecidableEq

/-- Model of `ms_oforms::common::parse_guid` (external collaborator):
16 bytes in standard GUID wire format. -/
def parse_guid : Parser Uuid
  | b0 :: b1 :: b2 :: b3 :: b4 :: b5 :: b6 :: b7 :: rest8 =>
    match rest8 with
    | b8 :: b9 :: b10 :: b11 :: b12 :: b13 :: b14 :: b15 :: r =>
      .ok r ⟨leVal32 b0 b1 b2 b3, leVal16 b4 b5, leVal16 b6 b7,
        [b8, b9, b10, b11, b12, b13, b14, b15]⟩
    | _ => .fail
  | _ => .fail

/-- Model of `ms_oforms::properties::VarType` (external collaborator), a
bitflags u16 over the OLE VARENUM type codes (`EMPTY..DECIMAL`, the integer
types, `ARRAY`, `BYREF`); `from_bits` accepts exactly the subsets of the
union of the defined bits. The claims only rely on tags 0x0001, 0x0008
(`BSTR`) and 0x000B (`BOOL`) being accepted, which any bitflags type
containing `BSTR = 8` and `BOOL = 11` accepts. -/
def varTypeMask : Nat := 0x601F

/-- Model of `VarType::from_bits` (bitflags semantics). -/
def varTypeFromBits (v : Nat) : Option Nat :=
  if v &&& varTypeMask = v then some v else none

/-- The `VT_BSTR` type code. -/
def vtBSTR : Nat := 0x0008

/-- The `VT_BOOL` type code. -/
def vtBOOL : Nat := 0x000B

/-- Tagged variant value (src/dtyp.rs). -/
inductive Variant where
  | bstr (s : RString)
  | bool (b : Bool)
deriving Repr, DecidableEq

/-- Model of `parse_variant` (src/dtyp.rs:20-39): a 16-bit type tag via
`VarType::from_bits` (failure on unknown bits), then: `BSTR` tag reads a
length-prefixed string; `BOOL` tag reads a 16-bit word mapping 0x0000 to
false and 0xFFFF to true, anything else a failure; any other recognized tag
hits `todo!`, i.e. panics. -/
def parse_variant : Parser Variant := fun input =>
  (le_u16 input).bind fun r vtRaw =>
    match varTypeFromBits vtRaw with
    | none => .fail
    | some vt =>
      if vt = vtBSTR then
        (parse_u32_bytes_wstring_nt r).bind fun r2 s => .ok r2 (.bstr s)
      else if vt = vtBOOL then
        (le_u16 r).bind fun r2 w =>
          if w = 0x0000 then .ok r2 (.bool false)
          else if w = 0xFFFF then .ok r2 (.bool true)
          else .fail
      else .panicked

/-! DSRef type flags (src/dsref.rs:107-204), as raw u32 bit values. -/

/-- Union of the bits of every named `DsRefType` constant; `from_bits`
accepts exactly the values contained in it. The named constants cover bits
0, 1, 2, 4 and 8..31, so the mask is 0xFFFFFF17. -/
def dsRefTypeMask : Nat := 0xFFFFFF17

/-- Model of `DsRefType::from_bits` (bitflags semantics). -/
def dsRefTypeFromBits (v : Nat) : Option Nat :=
  if v &&& dsRefTypeMask = v then some v else none

/-- Flag containment test, as `DsRefType::contains`: every bit of `c` set. -/
def dsContains (flags c : Nat) : Bool := flags &&& c = c

/-- The `DsRefType::EXTENDED` bit. -/
def EXTENDED : Nat := 16384

/-- The `DsRefType::HASFIRSTCHILD` bit. -/
def HASFIRSTCHILD : Nat := 65536

/-- The `DsRefType::HASNEXTSIBLING` bit. -/
def HASNEXTSIBLING : Nat := 131072

/-- The `DsRefType::HASNAME` bit. -/
def HASNAME : Nat := 262144

/-- The `DsRefType::HASOWNER` bit. -/
def HASOWNER : Nat := 2097152

/-- The `DsRefType::HASPROP` bit. -/
def HASPROP : Nat := 4194304

/-- A node of the data-source-reference tree (src/dsref.rs:206-218).
The `BTreeMap<Uuid, Variant>` property map is modelled as an association
list with last-write-wins insertion; no claim depends on iteration order. -/
inductive DsRefNode where
  | mk (flags : Nat) (extended_type : Option Uuid) (name : Option RString)
      (owner : Option RString) (children : List DsRefNode)
      (properties : Option (List (Uuid × Variant)))

/-- Flag word of the node. -/
def DsRefNode.flags : DsRefNode → Nat
  | .mk f _ _ _ _ _ => f

/-- Extended-type GUID of the node, if present. -/
def DsRefNode.extended_type : DsRefNode → Option Uuid
  | .mk _ e _ _ _ _ => e

/-- Name of the node, if present. -/
def DsRefNode.name : DsRefNode → Option RString
  | .mk _ _ n _ _ _ => n

/-- Owner of the node, if present. -/
def DsRefNode.owner : DsRefNode → Option RString
  | .mk _ _ _ o _ _ => o

/-- Children of the node. -/
def DsRefNode.children : DsRefNode → List DsRefNode
  | .mk _ _ _ _ c _ => c

/-- Property map of the node, if present. -/
def DsRefNode.properties : DsRefNode → Option (List (Uuid × Variant))
  | .mk _ _ _ _ _ p => p

/-- Model of `BTreeMap::insert`: replace the value of an existing key,
otherwise add the pair. -/
def insertProp (m : List (Uuid × Variant)) (k : Uuid) (v : Variant) :
    List (Uuid × Variant) :=
  if m.any (fun p => p.1 = k) then
    m.map (fun p => if p.1 = k then (k, v) else p)
  else m ++ [(k, v)]

/-- The property-reading loop of `parse_dsref_properties` (src/dsref.rs:
246-263): `prop_count` iterations of `(parse_guid, parse_variant)` with
`BTreeMap::insert`. -/
def propsLoop : Nat → Bytes → List (Uuid × Variant) →
    PResult (List (Uuid × Variant))
  | 0, input, acc => .ok input acc
  | n + 1, input, acc =>
    (parse_guid input).bind fun r k =>
      (parse_variant r).bind fun r2 v =>
        propsLoop n r2 (insertProp acc k v)

/-- Model of `parse_dsref_properties` (src/dsref.rs:246-263). -/
def parse_dsref_properties : Parser (List (Uuid × Variant)) := fun input =>
  (le_u32 input).bind fun r n => propsLoop n r []

/-- The `while hasnext` child loop of `parse_dsref_node` (src/dsref.rs:
281-292), entered when the relevant flag bit is known to be set: decode one
node with `pnode`, then continue exactly when that node's `HASNEXTSIBLING`
bit is set. The iteration count `n` is fuel for the loop (the Rust loop
terminates because every node consumes at least 4 bytes). -/
def siblingsLoop (pnode : Parser DsRefNode) : Nat → Parser (List DsRefNode)
  | 0 => fun _ => .fail
  | n + 1 => fun input =>
    (pnode input).bind fun rest entry =>
      if dsContains entry.flags HASNEXTSIBLING then
        (siblingsLoop pnode n rest).bind fun r2 nodes => .ok r2 (entry :: nodes)
      else .ok rest [entry]

/-- Model of `parse_dsref_node` (src/dsref.rs:265-306), with a fuel
parameter standing in for the Rust recursion (which terminates because
every recursive call consumes at least the 4 flag bytes); running out of
fuel is a parse failure, and every claim is proved for all fuel values.
Decode order: flags via `from_bits` (unknown bits fail), extended-type GUID
iff `EXTENDED`, name iff `HASNAME`, owner iff `HASOWNER`, sibling-linked
children loop iff `HASFIRSTCHILD`, properties iff `HASPROP`. -/
def parse_dsref_node : Nat → Parser DsRefNode
  | 0 => fun _ => .fail
  | fuel + 1 => fun input =>
    (le_u32 input).bind fun r flagsRaw =>
      match dsRefTypeFromBits flagsRaw with
      | none => .fail
      | some flags =>
        (if dsContains flags EXTENDED then
            (parse_guid r).bind fun r2 g => .ok r2 (some g)
          else .ok r none).bind fun r2 extended_type =>
        (if dsContains flags HASNAME then
            (parse_u32_bytes_wstring_nt r2).bind fun r3 s => .ok r3 (some s)
          else .ok r2 none).bind fun r3 name =>
        (if dsContains flags HASOWNER then
            (parse_u32_bytes_wstring_nt r3).bind fun r4 s => .ok r4 (some s)
          else .ok r3 none).bind fun r4 owner =>
        (if dsContains flags HASFIRSTCHILD then
            siblingsLoop (parse_dsref_node fuel) (fuel + 1) r4
          else .ok r4 []).bind fun r5 children =>
        (if dsContains flags HASPROP then
            (parse_dsref_properties r5).bind fun r6 ps => .ok r6 (some ps)
          else .ok r5 none).bind fun r6 properties =>
        .ok r6 (.mk flags extended_type name owner children properties)

/-- Persisted DSRef stream contents (src/dsref.rs:220-230). -/
structure DSRefSchemaContents where
  clsid : Uuid
  len : Nat
  a : Nat
  timestamp : Nat
  b : Nat
  root_node : DsRefNode

/-- The `WINDOWS_TICK` constant (src/dsref.rs:232). -/
def WINDOWS_TICK : Nat := 10000000

/-- The `SEC_TO_UNIX_EPOCH` constant (src/dsref.rs:233). -/
def SEC_TO_UNIX_EPOCH : Nat := 11644473600

/-- Model of `windows_tick_to_unix_seconds` (src/dsref.rs:235-237):
`windows_ticks / WINDOWS_TICK - SEC_TO_UNIX_EPOCH` in u64 arithmetic
(wrapping subtraction made explicit). -/
def windows_tick_to_unix_seconds (windows_ticks : Nat) : Nat :=
  (windows_ticks / WINDOWS_TICK + (2 ^ 64 - SEC_TO_UNIX_EPOCH)) % 2 ^ 64

/-- Model of `DSRefSchemaContents::get_time` (src/dsref.rs:241-243). -/
def DSRefSchemaContents.get_time (s : DSRefSchemaContents) : Nat :=
  windows_tick_to_unix_seconds s.timestamp

/-- Model of `parse_dsref_schema_contents` (src/dsref.rs:308-334), the
top-level DSRef entry point; the node recursion gets fuel
`input.length + 1`, which the 4-bytes-per-call argument shows is enough. -/
def parse_dsref_schema_contents : Parser DSRefSchemaContents := fun input =>
  (parse_guid input).bind fun r clsid =>
    (tagBytes [0x00, 0x00] r).bind fun r1 _ =>
      (le_u16 r1).bind fun r2 a =>
        (le_u64 r2).bind fun r3 timestamp =>
          (le_u32 r3).bind fun r4 b =>
            (parse_dsref_node (r4.length + 1) r4).bind fun r5 root_node =>
              .ok r5 ⟨clsid, r.length, a, timestamp, b, root_node⟩

theorem PResult.bind_eq_ok {α β : Type} {m : PResult α} {f : Bytes → α → PResult β}
    {rest : Bytes} {v : β} :
    PResult.bind m f = .ok rest v ↔ ∃ r' v', m = .ok r' v' ∧ f r' v' = .ok rest v := by
  cases m with
  | ok r' v' =>
    simp only [PResult.bind_ok]
    constructor
    · intro h; exact ⟨r', v', rfl, h⟩
    · rintro ⟨r'', v'', h1, h2⟩
      cases h1
      exact h2
  | fail => simp [PResult.bind]
  | panicked => simp [PResult.bind]

/-- An optional-field read guarded by a flag (`nom::combinator::cond`
in `parse_dsref_node`) yields `some` exactly when the flag is set. -/
theorem cond_isSome {α : Type} {c : Bool} {p : Parser α} {r rest : Bytes}
    {x : Option α}
    (h : (if c then (p r).bind (fun r2 s => .ok r2 (some s))
          else .ok r (none : Option α)) = .ok rest x) :
    x.isSome = c := by
  cases c with
  | false =>
    rw [if_neg (by simp)] at h
    cases h
    rfl
  | true =>
    rw [if_pos rfl] at h
    rw [PResult.bind_eq_ok] at h
    obtain ⟨r', v', _, h2⟩ := h
    cases h2
    rfl

/-- C2 helper: whatever the element parser is, the sibling loop never
returns an empty list, and a decoded sibling has its `HASNEXTSIBLING` bit
set exactly when it is not the last one. -/
theorem siblingsLoop_chain (pnode : Parser DsRefNode) (n : Nat) :
    ∀ (input rest : Bytes) (l : List DsRefNode),
      siblingsLoop pnode n input = .ok rest l →
      l ≠ [] ∧ ∀ (i : Nat) (h : i < l.length),
        (dsContains (l.get ⟨i, h⟩).flags HASNEXTSIBLING = true ↔
          i + 1 < l.length) := by
  induction n with
  | zero =>
    intro input rest l h
    rw [show siblingsLoop pnode 0 input = PResult.fail from rfl] at h
    cases h
  | succ n ih =>
    intro input rest l h
    simp only [siblingsLoop] at h
    rw [PResult.bind_eq_ok] at h
    obtain ⟨r1, entry, _hentry, h⟩ := h
    by_cases hnext : dsContains entry.flags HASNEXTSIBLING = true
    · rw [if_pos hnext] at h
      rw [PResult.bind_eq_ok] at h
      obtain ⟨r2, nodes, hrec, h2⟩ := h
      obtain ⟨hne, hchain⟩ := ih r1 r2 nodes hrec
      cases h2
      refine ⟨by simp, ?_⟩
      intro i hi
      match i with
      | 0 =>
        have hpos : 0 < nodes.length := List.length_pos.mpr hne
        simp only [List.get_cons_zero, List.length_cons]
        constructor
        · intro _; omega
        · intro _; exact hnext
      | i + 1 =>
        simp only [List.length_cons] at hi ⊢
        have hstep := hchain i (by omega)
        rw [List.get_cons_succ]
        constructor
        · intro hc; have := hstep.mp hc; omega
        · intro hlt; exact hstep.mpr (by omega)
    · rw [if_neg hnext] at h
      cases h
      refine ⟨by simp, ?_⟩
      intro i hi
      simp only [List.length_singleton] at hi
      match i with
      | 0 =>
        simp only [List.get_cons_zero, List.length_singleton]
        constructor
        · intro hc; exact absurd hc hnext
        · intro hlt; omega

/-- C2: For every successfully decoded `DsRefNode`, the children list is
exactly the sibling-linked chain: it is non-empty precisely when the
parent's `HASFIRSTCHILD` bit is set, and a child's `HASNEXTSIBLING` bit is
set precisely when another child follows it — so decoding stops the first
time the relevant bit is clear, and for a flag sequence where
`HASNEXTSIBLING` is clear after N children exactly N children are produced. -/
theorem parse_dsref_node_sibling_chain (fuel : Nat) (input rest : Bytes)
    (node : DsRefNode) (h : parse_dsref_node fuel input = .ok rest node) :
    (node.children = [] ↔ dsContains node.flags HASFIRSTCHILD = false) ∧
    ∀ (i : Nat) (hi : i < node.children.length),
      (dsContains (node.children.get ⟨i, hi⟩).flags HASNEXTSIBLING = true ↔
        i + 1 < node.children.length) := by
  match fuel with
  | 0 => simp [parse_dsref_node] at h
  | fuel + 1 =>
    simp only [parse_dsref_node] at h
    rw [PResult.bind_eq_ok] at h
    obtain ⟨r1, flagsRaw, _h1, h⟩ := h
    cases hfb : dsRefTypeFromBits flagsRaw with
    | none => rw [hfb] at h; simp at h
    | some flags =>
      rw [hfb] at h
      rw [PResult.bind_eq_ok] at h
      obtain ⟨r2, ext, _h2, h⟩ := h
      rw [PResult.bind_eq_ok] at h
      obtain ⟨r3, name, _h3, h⟩ := h
      rw [PResult.bind_eq_ok] at h
      obtain ⟨r4, owner, _h4, h⟩ := h
      rw [PResult.bind_eq_ok] at h
      obtain ⟨r5, children, h5, h⟩ := h
      rw [PResult.bind_eq_ok] at h
      obtain ⟨r6, properties, _h6, h⟩ := h
      cases h
      by_cases hfc : dsContains flags HASFIRSTCHILD = true
      · rw [if_pos hfc] at h5
        obtain ⟨hne, hchain⟩ :=
          siblingsLoop_chain (parse_dsref_node fuel) (fuel + 1) r4 r5 children h5
        exact ⟨by simp [DsRefNode.children, DsRefNode.flags, hne, hfc], fun i hi => hchain i hi⟩
      · rw [if_neg hfc] at h5
        cases h5
        constructor
        · simp only [DsRefNode.children, DsRefNode.flags]
          simp only [Bool.not_eq_true] at hfc
          simp [hfc]
        · intro i hi
          simp only [DsRefNode.children, List.length_nil] at hi
          omega

/-- Witness bytes for the sibling-chain theorem: a root whose flags are
exactly `HASFIRSTCHILD`, a first child whose flags are exactly
`HASNEXTSIBLING`, and a second child with flags 0. -/
def dsrefFixture : Bytes :=
  [0x00, 0x00, 0x01, 0x00, 0x00, 0x00, 0x02, 0x00, 0x00, 0x00, 0x00, 0x00]

/-- Witness: on the concrete two-child fixture the sibling-chain theorem
applies and exhibits exactly two children. -/
theorem parse_dsref_node_sibling_chain_witness :
    ∃ node, parse_dsref_node 3 dsrefFixture = .ok [] node ∧
      (node.children = [] ↔ dsContains node.flags HASFIRSTCHILD = false) ∧
      node.children.length = 2 := by
  refine ⟨DsRefNode.mk 65536 none none none
    [DsRefNode.mk 131072 none none none [] none,
     DsRefNode.mk 0 none none none [] none] none, ?_, ?_, rfl⟩
  · rfl
  · exact (parse_dsref_node_sibling_chain 3 dsrefFixture [] _ rfl).1

/-- C4: every optional field of a successfully decoded `DsRefNode` is
present exactly when the corresponding flag bit is set: `name` iff
`HASNAME`, `owner` iff `HASOWNER`, `properties` iff `HASPROP`, and
`extended_type` iff `EXTENDED`. -/
theorem parse_dsref_node_flag_field_coupling (fuel : Nat) (input rest : Bytes)
    (node : DsRefNode) (h : parse_dsref_node fuel input = .ok rest node) :
    node.name.isSome = dsContains node.flags HASNAME ∧
    node.owner.isSome = dsContains node.flags HASOWNER ∧
    node.properties.isSome = dsContains node.flags HASPROP ∧
    node.extended_type.isSome = dsContains node.flags EXTENDED := by
  match fuel with
  | 0 => simp [parse_dsref_node] at h
  | fuel + 1 =>
    simp only [parse_dsref_node] at h
    rw [PResult.bind_eq_ok] at h
    obtain ⟨r1, flagsRaw, _h1, h⟩ := h
    cases hfb : dsRefTypeFromBits flagsRaw with
    | none => rw [hfb] at h; simp at h
    | some flags =>
      rw [hfb] at h
      rw [PResult.bind_eq_ok] at h
      obtain ⟨r2, ext, h2, h⟩ := h
      rw [PResult.bind_eq_ok] at h
      obtain ⟨r3, name, h3, h⟩ := h
      rw [PResult.bind_eq_ok] at h
      obtain ⟨r4, owner, h4, h⟩ := h
      rw [PResult.bind_eq_ok] at h
      obtain ⟨r5, children, _h5, h⟩ := h
      rw [PResult.bind_eq_ok] at h
      obtain ⟨r6, properties, h6, h⟩ := h
      cases h
      refine ⟨?_, ?_, ?_, ?_⟩
      · simpa [DsRefNode.name, DsRefNode.flags] using cond_isSome h3
      · simpa [DsRefNode.owner, DsRefNode.flags] using cond_isSome h4
      · simpa [DsRefNode.properties, DsRefNode.flags] using cond_isSome h6
      · simpa [DsRefNode.extended_type, DsRefNode.flags] using cond_isSome h2

/-- Witness: the flag/field-coupling theorem applied to a concrete node
whose flags are `HASNAME` only (262144 = bytes 00 00 04 00), with name
"A" (byte count 4 = 2 string bytes + terminator). -/
theorem parse_dsref_node_flag_field_coupling_witness :
    ∃ rest node, parse_dsref_node 1
        [0x00, 0x00, 0x04, 0x00, 0x04, 0x00, 0x00, 0x00, 0x41, 0x00, 0x00, 0x00]
        = .ok rest node ∧
      node.name.isSome = dsContains node.flags HASNAME ∧
      node.owner.isSome = dsContains node.flags HASOWNER := by
  refine ⟨[], DsRefNode.mk 262144 none (some [0x41]) none [] none, rfl, ?_⟩
  have := parse_dsref_node_flag_field_coupling 1
    [0x00, 0x00, 0x04, 0x00, 0x04, 0x00, 0x00, 0x00, 0x41, 0x00, 0x00, 0x00]
    [] (DsRefNode.mk 262144 none (some [0x41]) none [] none) rfl
  exact ⟨this.1, this.2.1⟩

/-- C8: `get_time` applies `windows_tick_to_unix_seconds`, that conversion
maps the tick value 116444736000000000 (the Unix epoch in 100ns ticks since
1601-01-01) to exactly 0, and in general computes
`ticks / 10^7 - 11644473600` (u64 arithmetic, here in the non-wrapping
range). -/
theorem get_time_conversion :
    (∀ s : DSRefSchemaContents,
      s.get_time = windows_tick_to_unix_seconds s.timestamp) ∧
    windows_tick_to_unix_seconds 116444736000000000 = 0 ∧
    ∀ t : Nat, t < 2 ^ 64 → SEC_TO_UNIX_EPOCH ≤ t / WINDOWS_TICK →
      windows_tick_to_unix_seconds t = t / WINDOWS_TICK - SEC_TO_UNIX_EPOCH := by
  refine ⟨fun s => rfl, by norm_num [windows_tick_to_unix_seconds,
    WINDOWS_TICK, SEC_TO_UNIX_EPOCH], ?_⟩
  intro t ht hle
  unfold windows_tick_to_unix_seconds SEC_TO_UNIX_EPOCH
  unfold SEC_TO_UNIX_EPOCH at hle
  have hq : t / WINDOWS_TICK < 2 ^ 64 :=
    lt_of_le_of_lt (Nat.div_le_self t WINDOWS_TICK) ht
  omega

/-- Witness: the general conversion formula applied at twice the epoch tick
value. -/
theorem get_time_conversion_witness :
    windows_tick_to_unix_seconds 232889472000000000 = 11644473600 := by
  have h := get_time_conversion.2.2 232889472000000000 (by norm_num) (by norm_num [WINDOWS_TICK, SEC_TO_UNIX_EPOCH])
  rw [h]
  norm_num [WINDOWS_TICK, SEC_TO_UNIX_EPOCH]

/-- C10: in `parse_u32_bytes_wstring_nt` a byte-count prefix below 2 makes
the u32 subtraction `len - 2` wrap to nearly `2^32`, and in
`parse_u32_wstring_nt` a character-count prefix of 0 does the same through
`len * 2 - 2`; any input with fewer remaining bytes than that wrapped
demand (every realistic input) fails to decode — a string is never
returned. -/
theorem short_length_prefix_never_decodes :
    (∀ (b0 b1 b2 b3 : UInt8) (rest : Bytes), leVal32 b0 b1 b2 b3 < 2 →
      rest.length < 2 ^ 32 - 2 →
      parse_u32_bytes_wstring_nt (b0 :: b1 :: b2 :: b3 :: rest) = .fail) ∧
    ∀ (b0 b1 b2 b3 : UInt8) (rest : Bytes), leVal32 b0 b1 b2 b3 = 0 →
      rest.length < 2 ^ 32 - 2 →
      parse_u32_wstring_nt (b0 :: b1 :: b2 :: b3 :: rest) = .fail := by
  constructor
  · intro b0 b1 b2 b3 rest hlen hrest
    have hno : ¬ ((leVal32 b0 b1 b2 b3 + (2 ^ 32 - 2)) % 2 ^ 32 ≤ rest.length) := by
      omega
    unfold parse_u32_bytes_wstring_nt
    rw [show le_u32 (b0 :: b1 :: b2 :: b3 :: rest)
        = .ok rest (leVal32 b0 b1 b2 b3) from rfl]
    rw [PResult.bind_ok]
    rw [takeN_fail hno]
    rw [PResult.bind_fail]
  · intro b0 b1 b2 b3 rest hlen hrest
    have hno : ¬ ((leVal32 b0 b1 b2 b3 * 2 + (2 ^ 32 - 2)) % 2 ^ 32 ≤ rest.length) := by
      omega
    unfold parse_u32_wstring_nt
    rw [show le_u32 (b0 :: b1 :: b2 :: b3 :: rest)
        = .ok rest (leVal32 b0 b1 b2 b3) from rfl]
    rw [PResult.bind_ok]
    rw [takeN_fail hno]
    rw [PResult.bind_fail]

/-- Witness: both decoders reject the all-zero length prefix on empty
remaining input. -/
theorem short_length_prefix_never_decodes_witness :
    parse_u32_bytes_wstring_nt [0x00, 0x00, 0x00, 0x00] = .fail ∧
    parse_u32_wstring_nt [0x00, 0x00, 0x00, 0x00] = .fail :=
  ⟨short_length_prefix_never_decodes.1 0 0 0 0 [] (by decide) (by norm_num),
   short_length_prefix_never_decodes.2 0 0 0 0 [] (by decide) (by norm_num)⟩

/-- C5 counterexample: the 16-bit tag 0x0001 (`VT_NULL`, a bit pattern any
`VarType` containing `BOOL = 0x000B` accepts) is neither `BSTR` nor `BOOL`,
and `parse_variant` hits `todo!` — a panic, not a decode failure. -/
theorem parse_variant_unknown_tag_panics :
    parse_variant [0x01, 0x00] = .panicked := by rfl

/-- C5 (amended): `parse_variant` reads a 16-bit tag; on `BOOL` (0x000B) it
maps word 0x0000 to false, 0xFFFF to true and anything else to a decode
failure; on `BSTR` (0x0008) it decodes a length-prefixed string; on any
other tag it never returns a value and never silently skips — tags rejected
by `VarType::from_bits` are decode failures, while accepted tags other than
`BSTR`/`BOOL` panic via `todo!`. -/
theorem parse_variant_amended :
    (∀ (w0 w1 : UInt8) (rest : Bytes),
      parse_variant (0x0B :: 0x00 :: w0 :: w1 :: rest) =
        (if leVal16 w0 w1 = 0x0000 then .ok rest (.bool false)
         else if leVal16 w0 w1 = 0xFFFF then .ok rest (.bool true)
         else .fail)) ∧
    (∀ rest : Bytes, parse_variant (0x08 :: 0x00 :: rest) =
      (parse_u32_bytes_wstring_nt rest).bind fun r2 s => .ok r2 (.bstr s)) ∧
    ∀ (b0 b1 : UInt8) (rest : Bytes),
      leVal16 b0 b1 ≠ vtBSTR → leVal16 b0 b1 ≠ vtBOOL →
      parse_variant (b0 :: b1 :: rest) = .fail ∨
      parse_variant (b0 :: b1 :: rest) = .panicked := by
  refine ⟨fun w0 w1 rest => rfl, fun rest => rfl, ?_⟩
  intro b0 b1 rest hb hbo
  have hcons : parse_variant (b0 :: b1 :: rest) =
      (match varTypeFromBits (leVal16 b0 b1) with
       | none => PResult.fail
       | some vt =>
         if vt = vtBSTR then
           (parse_u32_bytes_wstring_nt rest).bind fun r2 s => .ok r2 (.bstr s)
         else if vt = vtBOOL then
           (le_u16 rest).bind fun r2 w =>
             if w = 0x0000 then .ok r2 (.bool false)
             else if w = 0xFFFF then .ok r2 (.bool true)
             else .fail
         else .panicked) := rfl
  cases hfb : varTypeFromBits (leVal16 b0 b1) with
  | none =>
    left
    rw [hcons]
    simp only [hfb]
  | some vt =>
    right
    have hvt : vt = leVal16 b0 b1 := by
      unfold varTypeFromBits at hfb
      by_cases hc : leVal16 b0 b1 &&& varTypeMask = leVal16 b0 b1
      · rw [if_pos hc] at hfb; cases hfb; rfl
      · rw [if_neg hc] at hfb; cases hfb
    subst hvt
    rw [hcons]
    simp only [hfb]
    rw [if_neg hb, if_neg hbo]

/-- Witness: the amended variant theorem at the concrete inputs: the BOOL
tag with word 0xFFFF decodes to true, and tag 0x0003 (neither BSTR nor
BOOL) yields no value. -/
theorem parse_variant_amended_witness :
    parse_variant [0x0B, 0x00, 0xFF, 0xFF] = .ok [] (.bool true) ∧
    (parse_variant [0x03, 0x00] = .fail ∨
      parse_variant [0x03, 0x00] = .panicked) := by
  constructor
  · rw [parse_variant_amended.1 0xFF 0xFF []]
    decide
  · exact parse_variant_amended.2.2 0x03 0x00 [] (by decide) (by decide)

/-! Microsoft Data Tools Database Designer grid control (src/mdtdb.rs). -/

/-- Model of `ms_oforms::properties::Size` (external collaborator): two
little-endian 32-bit values (raw bit patterns). -/
structure Size where
  width : Nat
  height : Nat
deriving Repr, DecidableEq

/-- Model of `Size::parse` (external collaborator): 8 bytes. -/
def parse_size : Parser Size := fun input =>
  (le_u32 input).bind fun r w =>
    (le_u32 r).bind fun r2 h => .ok r2 ⟨w, h⟩

/-- Model of `le_u32_2` (src/parser.rs:28-30). -/
def le_u32_2 : Parser (Nat × Nat) := fun input =>
  (le_u32 input).bind fun r a =>
    (le_u32 r).bind fun r2 b => .ok r2 (a, b)

/-- Layout sub-record `SG3` (src/mdtdb.rs:116-119): an unknown u32 and the
column-width array; the array's u32 length prefix is consumed but not
stored. -/
structure SG3 where
  v1 : Nat
  v2 : List Nat
deriving Repr, DecidableEq

/-- Layout record `SG4` (src/mdtdb.rs:123-130): the five fixed-role grid
layout specs of the frame. -/
structure SG4 where
  v0 : Nat × Nat
  v1 : Size
  v2 : Nat
  count : Nat
  shown : Nat
  v5 : SG3
deriving Repr, DecidableEq

/-- Model of `parse_sch_grid_inner3` (src/mdtdb.rs:163-167): u32 count,
u32 value, then `count` u32 entries. -/
def parse_sch_grid_inner3 : Parser SG3 := fun input =>
  (le_u32 input).bind fun r v2_count =>
    (le_u32 r).bind fun r2 v1 =>
      (countP le_u32 v2_count r2).bind fun r3 v2 => .ok r3 ⟨v1, v2⟩

/-- Model of `parse_sch_grid_inner4` (src/mdtdb.rs:132-150). -/
def parse_sch_grid_inner4 : Parser SG4 := fun input =>
  (le_u32_2 input).bind fun r v0 =>
    (parse_size r).bind fun r1 v1 =>
      (le_u32 r1).bind fun r2 v2 =>
        (le_u32 r2).bind fun r3 count =>
          (le_u32 r3).bind fun r4 shown =>
            (parse_sch_grid_inner3 r4).bind fun r5 v5 =>
              .ok r5 ⟨v0, v1, v2, count, shown, v5⟩

/-- The grid frame window (src/mdtdb.rs:58-95): caption and the five layout
records in fixed order. -/
structure GridFrameWnd where
  name : RString
  d5 : SG4
  cols : SG4
  keys : SG4
  x2 : SG4
  x3 : SG4
deriving Repr, DecidableEq

/-- The data-source record (src/mdtdb.rs:98-104). -/
structure DataSource where
  cd3 : Nat
  cd4 : Nat
  d14 : List Nat
  table : RString
  schema : RString
deriving Repr, DecidableEq

/-- The SchGrid control (src/mdtdb.rs:49-55). -/
structure SchGrid where
  extent : Size
  frame : GridFrameWnd
  data_source : DataSource
deriving Repr, DecidableEq

/-- The `OLE_CONTROL_MAGIC` guard constant 0x12344321 (src/mdtdb.rs:172). -/
def OLE_CONTROL_MAGIC : Nat := 0x12344321

/-- Little-endian byte encoding of `OLE_CONTROL_MAGIC`. -/
def oleControlMagicBytes : Bytes := [0x21, 0x43, 0x34, 0x12]

/-- Little-endian byte encoding of the frame guard constant 0x12345678
(src/mdtdb.rs:202, 210). -/
def frameMagicBytes : Bytes := [0x78, 0x56, 0x34, 0x12]

/-- Model of `parse_ole_control_extent` (src/mdtdb.rs:175-181): magic tag
(mismatch is a nom error), version pair checked by `assert_eq!` against
(8, 0) — a mismatch PANICS — then the extent size. -/
def parse_ole_control_extent : Parser Size := fun input =>
  (tagBytes oleControlMagicBytes input).bind fun r _ =>
    (le_u16 r).bind fun r1 v_minor =>
      (le_u16 r1).bind fun r2 v_major =>
        if (v_minor, v_major) = (8, 0) then parse_size r2 else .panicked

/-- Model of `_parse_data_source` (src/mdtdb.rs:183-199). -/
def parse_data_source_inner : Parser DataSource := fun input =>
  (le_u32 input).bind fun r cd3 =>
    (le_u32 r).bind fun r1 cd4 =>
      (length_count_u32 le_u32 r1).bind fun r2 d14 =>
        (parse_u32_wstring_nt r2).bind fun r3 schema =>
          (parse_u32_wstring_nt r3).bind fun r4 table =>
            .ok r4 ⟨cd3, cd4, d14, table, schema⟩

/-- Model of `parse_data_source` (src/mdtdb.rs:201-206): frame magic tag,
version pair asserted equal to (4, 0) (mismatch panics), then a
length-prefixed `_parse_data_source` record. -/
def parse_data_source : Parser DataSource := fun input =>
  (tagBytes frameMagicBytes input).bind fun r _ =>
    (le_u16 r).bind fun r1 v_minor =>
      (le_u16 r1).bind fun r2 v_major =>
        if (v_minor, v_major) = (4, 0) then
          length_value_u32 parse_data_source_inner r2
        else .panicked

/-- Model of `parse_sch_grid` (src/mdtdb.rs:208-284): OLE control extent,
frame magic tag, version pair asserted equal to (7, 0) (mismatch panics),
length-prefixed frame caption, the five `SG4` layout records in fixed order
(d5, cols, keys, x2, x3), then the data source. -/
def parse_sch_grid : Parser SchGrid := fun input =>
  (parse_ole_control_extent input).bind fun r extent =>
    (tagBytes frameMagicBytes r).bind fun r1 _ =>
      (le_u16 r1).bind fun r2 v_minor =>
        (le_u16 r2).bind fun r3 v_major =>
          if (v_minor, v_major) = (7, 0) then
            (length_value_u32 parse_wstring_nt r3).bind fun r4 name =>
              (parse_sch_grid_inner4 r4).bind fun r5 d5 =>
                (parse_sch_grid_inner4 r5).bind fun r6 cols =>
                  (parse_sch_grid_inner4 r6).bind fun r7 keys =>
                    (parse_sch_grid_inner4 r7).bind fun r8 x2 =>
                      (parse_sch_grid_inner4 r8).bind fun r9 x3 =>
                        (parse_data_source r9).bind fun r10 data_source =>
                          .ok r10 ⟨extent, ⟨name, d5, cols, keys, x2, x3⟩, data_source⟩
          else .panicked

theorem tagBytes_fail {p input : Bytes} (h : ¬ startsWithL p input = true) :
    tagBytes p input = .fail := if_neg h

/-- A control-extent magic mismatch is a nom error. -/
theorem parse_ole_control_extent_magic_fail (input : Bytes)
    (h : ¬ startsWithL oleControlMagicBytes input = true) :
    parse_ole_control_extent input = .fail := by
  unfold parse_ole_control_extent
  rw [tagBytes_fail h, PResult.bind_fail]

/-- A control-extent version pair other than (8, 0) panics (assert_eq!). -/
theorem parse_ole_control_extent_version_panic (v0 v1 v2 v3 : UInt8)
    (rest : Bytes) (h : (leVal16 v0 v1, leVal16 v2 v3) ≠ (8, 0)) :
    parse_ole_control_extent
      (0x21 :: 0x43 :: 0x34 :: 0x12 :: v0 :: v1 :: v2 :: v3 :: rest) = .panicked := by
  show (if (leVal16 v0 v1, leVal16 v2 v3) = (8, 0) then parse_size rest
        else .panicked) = .panicked
  rw [if_neg h]

/-- A well-formed control extent: magic, version (8, 0), 8 size bytes. -/
theorem parse_ole_control_extent_ok (e0 e1 e2 e3 e4 e5 e6 e7 : UInt8)
    (rest : Bytes) :
    parse_ole_control_extent
      (0x21 :: 0x43 :: 0x34 :: 0x12 :: 0x08 :: 0x00 :: 0x00 :: 0x00 ::
        e0 :: e1 :: e2 :: e3 :: e4 :: e5 :: e6 :: e7 :: rest)
      = .ok rest ⟨leVal32 e0 e1 e2 e3, leVal32 e4 e5 e6 e7⟩ := rfl

/-- C3 (amended): a mismatch of either 32-bit magic guard constant in
`parse_sch_grid` (the control-extent magic 0x12344321 or the frame magic
0x12345678) is a parse failure and never yields a decoded value; but a
version minor/major pair differing from the known value does not return a
parse failure — it panics through `assert_eq!`. -/
theorem parse_sch_grid_guards :
    (∀ input : Bytes, ¬ startsWithL oleControlMagicBytes input = true →
      parse_sch_grid input = .fail) ∧
    (∀ (v0 v1 v2 v3 : UInt8) (rest : Bytes),
      (leVal16 v0 v1, leVal16 v2 v3) ≠ (8, 0) →
      parse_sch_grid
        (0x21 :: 0x43 :: 0x34 :: 0x12 :: v0 :: v1 :: v2 :: v3 :: rest)
        = .panicked) ∧
    (∀ (e0 e1 e2 e3 e4 e5 e6 e7 : UInt8) (rest : Bytes),
      ¬ startsWithL frameMagicBytes rest = true →
      parse_sch_grid
        (0x21 :: 0x43 :: 0x34 :: 0x12 :: 0x08 :: 0x00 :: 0x00 :: 0x00 ::
          e0 :: e1 :: e2 :: e3 :: e4 :: e5 :: e6 :: e7 :: rest) = .fail) ∧
    (∀ (e0 e1 e2 e3 e4 e5 e6 e7 w0 w1 w2 w3 : UInt8) (rest : Bytes),
      (leVal16 w0 w1, leVal16 w2 w3) ≠ (7, 0) →
      parse_sch_grid
        (0x21 :: 0x43 :: 0x34 :: 0x12 :: 0x08 :: 0x00 :: 0x00 :: 0x00 ::
          e0 :: e1 :: e2 :: e3 :: e4 :: e5 :: e6 :: e7 ::
          0x78 :: 0x56 :: 0x34 :: 0x12 :: w0 :: w1 :: w2 :: w3 :: rest)
        = .panicked) := by
  refine ⟨?_, ?_, ?_, ?_⟩
  · intro input h
    unfold parse_sch_grid
    rw [parse_ole_control_extent_magic_fail input h, PResult.bind_fail]
  · intro v0 v1 v2 v3 rest h
    unfold parse_sch_grid
    rw [parse_ole_control_extent_version_panic v0 v1 v2 v3 rest h,
      PResult.bind_panicked]
  · intro e0 e1 e2 e3 e4 e5 e6 e7 rest h
    unfold parse_sch_grid
    rw [parse_ole_control_extent_ok, PResult.bind_ok, tagBytes_fail h,
      PResult.bind_fail]
  · intro e0 e1 e2 e3 e4 e5 e6 e7 w0 w1 w2 w3 rest h
    unfold parse_sch_grid
    rw [parse_ole_control_extent_ok, PResult.bind_ok]
    rw [show tagBytes frameMagicBytes
        (0x78 :: 0x56 :: 0x34 :: 0x12 :: w0 :: w1 :: w2 :: w3 :: rest)
        = .ok (w0 :: w1 :: w2 :: w3 :: rest) frameMagicBytes from rfl,
      PResult.bind_ok]
    rw [show le_u16 (w0 :: w1 :: w2 :: w3 :: rest)
        = .ok (w2 :: w3 :: rest) (leVal16 w0 w1) from rfl, PResult.bind_ok]
    rw [show le_u16 (w2 :: w3 :: rest)
        = .ok rest (leVal16 w2 w3) from rfl, PResult.bind_ok]
    rw [if_neg h]

/-- C3 counterexample: with a correct control-extent magic but version pair
(0, 0), `parse_sch_grid` panics (assert_eq!) instead of returning a parse
failure. -/
theorem parse_sch_grid_version_mismatch_panics :
    parse_sch_grid [0x21, 0x43, 0x34, 0x12, 0x00, 0x00, 0x00, 0x00]
      = .panicked := rfl

/-- Witness: the four guard conclusions at concrete inputs. -/
theorem parse_sch_grid_guards_witness :
    parse_sch_grid [] = .fail ∧
    parse_sch_grid [0x21, 0x43, 0x34, 0x12, 0x01, 0x00, 0x00, 0x00]
      = .panicked ∧
    parse_sch_grid
      [0x21, 0x43, 0x34, 0x12, 0x08, 0x00, 0x00, 0x00,
        0x00, 0x00, 0x00, 0x00, 0x00, 0x00, 0x00, 0x00] = .fail ∧
    parse_sch_grid
      [0x21, 0x43, 0x34, 0x12, 0x08, 0x00, 0x00, 0x00,
        0x00, 0x00, 0x00, 0x00, 0x00, 0x00, 0x00, 0x00,
        0x78, 0x56, 0x34, 0x12, 0x01, 0x00, 0x00, 0x00] = .panicked :=
  ⟨parse_sch_grid_guards.1 [] (by decide),
   parse_sch_grid_guards.2.1 0x01 0x00 0x00 0x00 [] (by decide),
   parse_sch_grid_guards.2.2.1 0 0 0 0 0 0 0 0 [] (by decide),
   parse_sch_grid_guards.2.2.2 0 0 0 0 0 0 0 0 0x01 0x00 0x00 0x00 [] (by decide)⟩

/-- C6 helper: a successful `parse_sch_grid_inner3` returns exactly as many
column widths as its u32 length prefix announces. -/
theorem parse_sch_grid_inner3_len (c0 c1 c2 c3 : UInt8) (tail rest : Bytes)
    (sg3 : SG3)
    (h : parse_sch_grid_inner3 (c0 :: c1 :: c2 :: c3 :: tail) = .ok rest sg3) :
    sg3.v2.length = leVal32 c0 c1 c2 c3 := by
  unfold parse_sch_grid_inner3 at h
  rw [show le_u32 (c0 :: c1 :: c2 :: c3 :: tail)
      = .ok tail (leVal32 c0 c1 c2 c3) from rfl, PResult.bind_ok] at h
  rw [PResult.bind_eq_ok] at h
  obtain ⟨r2, v1, _h1, h⟩ := h
  rw [PResult.bind_eq_ok] at h
  obtain ⟨r3, v2, h2, h3⟩ := h
  have hlen := countP_length le_u32 (leVal32 c0 c1 c2 c3) r2 r3 v2 h2
  cases h3
  simpa using hlen

/-- C6: the column-width array of every successfully decoded grid layout
spec has exactly as many entries as the col_count field read from the
stream: `parse_sch_grid_inner3` returns a list of length equal to its u32
count prefix, and every `SG4` produced by `parse_sch_grid_inner4` carries
an `SG3` whose width list matches the count prefix of the region it was
decoded from. -/
theorem grid_layout_col_count :
    (∀ (c0 c1 c2 c3 : UInt8) (tail rest : Bytes) (sg3 : SG3),
      parse_sch_grid_inner3 (c0 :: c1 :: c2 :: c3 :: tail) = .ok rest sg3 →
      sg3.v2.length = leVal32 c0 c1 c2 c3) ∧
    ∀ (input rest : Bytes) (sg4 : SG4),
      parse_sch_grid_inner4 input = .ok rest sg4 →
      ∃ (c0 c1 c2 c3 : UInt8) (tail : Bytes),
        parse_sch_grid_inner3 (c0 :: c1 :: c2 :: c3 :: tail)
          = .ok rest sg4.v5 ∧
        sg4.v5.v2.length = leVal32 c0 c1 c2 c3 := by
  refine ⟨parse_sch_grid_inner3_len, ?_⟩
  intro input rest sg4 h
  unfold parse_sch_grid_inner4 at h
  rw [PResult.bind_eq_ok] at h
  obtain ⟨r, v0, _h0, h⟩ := h
  rw [PResult.bind_eq_ok] at h
  obtain ⟨r1, v1, _h1, h⟩ := h
  rw [PResult.bind_eq_ok] at h
  obtain ⟨r2, v2, _h2, h⟩ := h
  rw [PResult.bind_eq_ok] at h
  obtain ⟨r3, cnt, _h3, h⟩ := h
  rw [PResult.bind_eq_ok] at h
  obtain ⟨r4, shown, _h4, h⟩ := h
  rw [PResult.bind_eq_ok] at h
  obtain ⟨r5, v5, h5, h6⟩ := h
  cases h6
  match r4, h5 with
  | [], h5 => rw [show parse_sch_grid_inner3 [] = PResult.fail from rfl] at h5; cases h5
  | [c0], h5 =>
    rw [show parse_sch_grid_inner3 [c0] = PResult.fail from rfl] at h5; cases h5
  | [c0, c1], h5 =>
    rw [show parse_sch_grid_inner3 [c0, c1] = PResult.fail from rfl] at h5
    cases h5
  | [c0, c1, c2], h5 =>
    rw [show parse_sch_grid_inner3 [c0, c1, c2] = PResult.fail from rfl] at h5
    cases h5
  | c0 :: c1 :: c2 :: c3 :: tail, h5 =>
    exact ⟨c0, c1, c2, c3, tail, h5,
      parse_sch_grid_inner3_len c0 c1 c2 c3 tail rest v5 h5⟩

/-- Concrete 44-byte layout record: zeros everywhere except a col_count of
2 with two zero column widths. -/
def sg4FixtureBytes : Bytes :=
  [0, 0, 0, 0, 0, 0, 0, 0, 0, 0, 0, 0, 0, 0, 0, 0,
   0, 0, 0, 0, 0, 0, 0, 0, 0, 0, 0, 0,
   0x02, 0, 0, 0, 0, 0, 0, 0, 0, 0, 0, 0, 0, 0, 0, 0]

/-- Witness: the column-count invariant evaluated at concrete fixtures. -/
theorem grid_layout_col_count_witness :
    (SG3.v2 ⟨9, [5, 7]⟩).length = leVal32 2 0 0 0 ∧
    ∃ (c0 c1 c2 c3 : UInt8) (tail : Bytes),
      parse_sch_grid_inner3 (c0 :: c1 :: c2 :: c3 :: tail)
        = .ok [] (SG4.v5 ⟨(0, 0), ⟨0, 0⟩, 0, 0, 0, ⟨0, [0, 0]⟩⟩) ∧
      (SG4.v5 ⟨(0, 0), ⟨0, 0⟩, 0, 0, 0, ⟨0, [0, 0]⟩⟩).v2.length
        = leVal32 c0 c1 c2 c3 :=
  ⟨grid_layout_col_count.1 2 0 0 0
      [9, 0, 0, 0, 5, 0, 0, 0, 7, 0, 0, 0] [] ⟨9, [5, 7]⟩ rfl,
   grid_layout_col_count.2 sg4FixtureBytes []
      ⟨(0, 0), ⟨0, 0⟩, 0, 0, 0, ⟨0, [0, 0]⟩⟩ rfl⟩

/-! DaVinci Design Surface controls (src/dds.rs). -/

/-- Model of `ms_oforms::properties::Position` (external collaborator):
two little-endian 32-bit values (raw bit patterns). -/
structure Position where
  x : Nat
  y : Nat
deriving Repr, DecidableEq

/-- Model of `Position::parse` (external collaborator): 8 bytes. -/
def parse_position : Parser Position := fun input =>
  (le_u32 input).bind fun r x =>
    (le_u32 r).bind fun r2 y => .ok r2 ⟨x, y⟩

/-- Model of `DdsPolylineEndType::from_u32` (src/dds.rs:57-79 with the
`FromPrimitive` derive): the named discriminants are 0..18 and Custom = 99;
any other value is rejected. The enumerant is kept as its numeric value. -/
def ddsPolylineEndTypeFromU32 (v : Nat) : Option Nat :=
  if v ≤ 18 ∨ v = 99 then some v else none

/-- Model of `ms_oforms::properties::color::OleColor` (external
collaborator), kept as the raw 32-bit value. -/
structure OleColor where
  value : Nat
deriving Repr, DecidableEq

/-- Model of `parse_ole_color` (external collaborator): a 32-bit value
whose high byte selects the color kind (0x00 Default, 0x01 PaletteEntry,
0x02 RgbColor, 0x80 SystemPalette); any other high byte is a parse
failure. -/
def parse_ole_color : Parser OleColor
  | b0 :: b1 :: b2 :: b3 :: r =>
    if b3 = 0x00 ∨ b3 = 0x01 ∨ b3 = 0x02 ∨ b3 = 0x80 then
      .ok r ⟨leVal32 b0 b1 b2 b3⟩
    else .fail
  | _ => .fail

/-- A label reference inside a polyline (src/dds.rs:81-87). -/
structure LabelRef where
  id : Nat
  x2 : Nat
  pos : Position
  size : Size
deriving Repr, DecidableEq

/-- Model of `parse_label_ref` (src/dds.rs:186-192). -/
def parse_label_ref : Parser LabelRef := fun input =>
  (le_u32 input).bind fun r id =>
    (le_u32 r).bind fun r1 x2 =>
      (parse_position r1).bind fun r2 pos =>
        (parse_size r2).bind fun r3 size =>
          .ok r3 ⟨id, x2, pos, size⟩

/-- The Polyline control (src/dds.rs:92-103); `restBytes` holds the
verbatim trailing bytes captured by nom `rest` (field `_rest`). -/
structure Polyline where
  d1 : Nat
  positions : List Position
  end_type_src : Nat
  end_type_dest : Nat
  color : OleColor
  x1 : Bytes
  labels : List LabelRef
  d7 : Nat
  restBytes : Bytes
deriving Repr, DecidableEq

/-- Model of `parse_polyline` (src/dds.rs:203-231): 16-bit point count,
16-bit unknown, that many points, two end-cap enumerants (invalid value
fails), a color, a 16-byte opaque blob, a u32-counted `LabelRef` array, one
unknown byte, and all remaining bytes verbatim. -/
def parse_polyline : Parser Polyline := fun input =>
  (le_u16 input).bind fun r pos_count =>
    (le_u16 r).bind fun r1 d1 =>
      (countP parse_position pos_count r1).bind fun r2 positions =>
        (le_u32 r2).bind fun r3 srcRaw =>
          match ddsPolylineEndTypeFromU32 srcRaw with
          | none => .fail
          | some end_type_src =>
            (le_u32 r3).bind fun r4 destRaw =>
              match ddsPolylineEndTypeFromU32 destRaw with
              | none => .fail
              | some end_type_dest =>
                (parse_ole_color r4).bind fun r5 color =>
                  (takeN 16 r5).bind fun r6 x1 =>
                    (length_count_u32 parse_label_ref r6).bind fun r7 labels =>
                      (le_u8 r7).bind fun r8 d7 =>
                        .ok [] ⟨d1, positions, end_type_src, end_type_dest,
                          color, x1, labels, d7, r8⟩

/-- C7 counterexample input: point count 0, unknown word 0, end caps
Many (0) and Key (2), a Default color, 16 opaque zero bytes, an empty label
array and a zero trailing byte. -/
def polylineZeroFixture : Bytes :=
  [0x00, 0x00, 0x00, 0x00,
   0x00, 0x00, 0x00, 0x00, 0x02, 0x00, 0x00, 0x00,
   0x00, 0x00, 0x00, 0x00,
   0, 0, 0, 0, 0, 0, 0, 0, 0, 0, 0, 0, 0, 0, 0, 0,
   0x00, 0x00, 0x00, 0x00, 0x00]

/-- The Polyline value decoded from `polylineZeroFixture`. -/
def polylineZeroValue : Polyline :=
  ⟨0, [], 0, 2, ⟨0⟩, [0, 0, 0, 0, 0, 0, 0, 0, 0, 0, 0, 0, 0, 0, 0, 0],
    [], 0, []⟩

/-- C7 counterexample: `parse_polyline` succeeds on an input whose 16-bit
point count is 0 and returns a Polyline with an empty `positions` list —
nothing in the decoder enforces at least one point. -/
theorem parse_polyline_accepts_empty_positions :
    parse_polyline polylineZeroFixture = .ok [] polylineZeroValue ∧
    polylineZeroValue.positions = [] := ⟨rfl, rfl⟩

/-- C7 (amended): a successful `parse_polyline` returns exactly as many
points as the leading 16-bit count field announces — the list is empty
exactly when that count is 0, so non-emptiness is not an invariant of the
decoder. -/
theorem parse_polyline_positions_length (b0 b1 : UInt8) (rest r : Bytes)
    (p : Polyline) (h : parse_polyline (b0 :: b1 :: rest) = .ok r p) :
    p.positions.length = leVal16 b0 b1 := by
  unfold parse_polyline at h
  rw [show le_u16 (b0 :: b1 :: rest) = .ok rest (leVal16 b0 b1) from rfl,
    PResult.bind_ok] at h
  rw [PResult.bind_eq_ok] at h
  obtain ⟨r1, d1, _h1, h⟩ := h
  rw [PResult.bind_eq_ok] at h
  obtain ⟨r2, positions, h2, h⟩ := h
  have hlen := countP_length parse_position (leVal16 b0 b1) r1 r2 positions h2
  rw [PResult.bind_eq_ok] at h
  obtain ⟨r3, srcRaw, _h3, h⟩ := h
  cases hsrc : ddsPolylineEndTypeFromU32 srcRaw with
  | none => rw [hsrc] at h; cases h
  | some ets =>
    rw [hsrc] at h
    rw [PResult.bind_eq_ok] at h
    obtain ⟨r4, destRaw, _h4, h⟩ := h
    cases hdst : ddsPolylineEndTypeFromU32 destRaw with
    | none => rw [hdst] at h; cases h
    | some etd =>
      rw [hdst] at h
      rw [PResult.bind_eq_ok] at h
      obtain ⟨r5, color, _h5, h⟩ := h
      rw [PResult.bind_eq_ok] at h
      obtain ⟨r6, x1, _h6, h⟩ := h
      rw [PResult.bind_eq_ok] at h
      obtain ⟨r7, labels, _h7, h⟩ := h
      rw [PResult.bind_eq_ok] at h
      obtain ⟨r8, d7, _h8, h⟩ := h
      cases h
      simpa using hlen

/-- Byte tail of the one-point polyline witness fixture (everything after
the 16-bit point count). -/
def polylineOneFixtureTail : Bytes :=
  [0x00, 0x00,
   0x05, 0x00, 0x00, 0x00, 0x06, 0x00, 0x00, 0x00,
   0x00, 0x00, 0x00, 0x00, 0x02, 0x00, 0x00, 0x00,
   0x00, 0x00, 0x00, 0x00,
   0, 0, 0, 0, 0, 0, 0, 0, 0, 0, 0, 0, 0, 0, 0, 0,
   0x00, 0x00, 0x00, 0x00, 0x00]

/-- Witness: the amended point-count theorem at a one-point fixture. -/
theorem parse_polyline_positions_length_witness :
    ∃ p : Polyline,
      parse_polyline (0x01 :: 0x00 :: polylineOneFixtureTail) = .ok [] p ∧
      p.positions.length = leVal16 0x01 0x00 := by
  refine ⟨⟨0, [⟨5, 6⟩], 0, 2, ⟨0⟩,
    [0, 0, 0, 0, 0, 0, 0, 0, 0, 0, 0, 0, 0, 0, 0, 0], [], 0, []⟩, rfl, ?_⟩
  exact parse_polyline_positions_length 0x01 0x00 polylineOneFixtureTail [] _ rfl

/-- Model of `ms_oforms::properties::font::StdFont` (external
collaborator); only its presence in the byte stream matters to this crate. -/
structure StdFont where
  charset : Nat
  attributes : Nat
  weight : Nat
  height : Nat
  face : Bytes
deriving Repr, DecidableEq

/-- Model of `parse_std_font` (external collaborator, MS-OFORMS StdFont
stream): version byte 1, charset u16, attribute byte, weight u16, height
u32, face-name length byte and that many face bytes. -/
def parse_std_font : Parser StdFont := fun input =>
  (le_u8 input).bind fun r version =>
    if version = 1 then
      (le_u16 r).bind fun r1 charset =>
        (le_u8 r1).bind fun r2 attributes =>
          (le_u16 r2).bind fun r3 weight =>
            (le_u32 r3).bind fun r4 height =>
              (le_u8 r4).bind fun r5 faceLen =>
                (takeN faceLen r5).bind fun r6 face =>
                  .ok r6 ⟨charset, attributes, weight, height, face⟩
    else .fail

/-- Model of `LabelJustification::from_u16` (src/dds.rs:141-150):
Left = 0, Center = 1, Right = 2, anything else rejected; kept numeric. -/
def labelJustificationFromU16 (v : Nat) : Option Nat :=
  if v ≤ 2 then some v else none

/-- Model of `LabelFlags::from_bits` (src/dds.rs:119-129): the six defined
bits form the mask 0x3F; any other bit set is rejected. -/
def labelFlagsFromBits (v : Nat) : Option Nat :=
  if v &&& 0x3F = v then some v else none

/-- The Label control (src/dds.rs:105-117). -/
structure Label where
  d1 : Nat
  size : Size
  d2 : Bytes
  back_color : OleColor
  fore_color : OleColor
  justification : Nat
  d3 : Nat
  flags : Nat
  font : StdFont
  text : RString
deriving Repr, DecidableEq

/-- Model of `parse_label` (src/dds.rs:152-184). -/
def parse_label : Parser Label := fun input =>
  (le_u32 input).bind fun r d1 =>
    (parse_size r).bind fun r1 size =>
      (takeN 6 r1).bind fun r2 d2 =>
        (parse_ole_color r2).bind fun r3 back_color =>
          (parse_ole_color r3).bind fun r4 fore_color =>
            (le_u16 r4).bind fun r5 justRaw =>
              match labelJustificationFromU16 justRaw with
              | none => .fail
              | some justification =>
                (le_u16 r5).bind fun r6 d3 =>
                  (le_u16 r6).bind fun r7 flagsRaw =>
                    match labelFlagsFromBits flagsRaw with
                    | none => .fail
                    | some flags =>
                      (parse_std_font r7).bind fun r8 font =>
                        (parse_u16_wstring r8).bind fun r9 text =>
                          .ok r9 ⟨d1, size, d2, back_color, fore_color,
                            justification, d3, flags, font, text⟩

/-! Site dispatch orchestration (src/lib.rs:139-203, `schema_form`). -/

/-- `CLSID_SCHGRID` (src/mdtdb.rs:39). -/
def CLSID_SCHGRID : Uuid :=
  ⟨0xe9b0e6d9, 0x811c, 0x11d0, [0xad, 0x51, 0x00, 0xa0, 0xc9, 0x0f, 0x57, 0x39]⟩

/-- `CLSID_POLYLINE` (src/dds.rs:36). -/
def CLSID_POLYLINE : Uuid :=
  ⟨0xd24d4453, 0x1f01, 0x11d1, [0x8e, 0x63, 0x00, 0x60, 0x97, 0xd2, 0xdf, 0x48]⟩

/-- `CLSID_DDSLABEL` (src/dds.rs:38). -/
def CLSID_DDSLABEL : Uuid :=
  ⟨0xd24d4451, 0x1f01, 0x11d1, [0x8e, 0x63, 0x00, 0x60, 0x97, 0xd2, 0xdf, 0x48]⟩

/-- Model of `ms_oforms::properties::FormEmbeddedActiveXControl` (external
collaborator): the class of a site, either a non-cached class-table entry
carrying a CLSID or a cached reference (which `schema_form` leaves
`unimplemented!`). -/
inductive FormEmbeddedActiveXControl where
  | controlNonCached (clsid : Uuid)
  | controlCached (idx : Nat)
deriving Repr, DecidableEq

/-- Site metadata of an OLE site as consumed by `schema_form` (external
`OleSiteConcreteControl` fields used there). -/
structure OleSiteConcrete where
  id : Nat
  object_stream_size : Nat
  site_position : Position
  control_tip_text : RString
deriving Repr, DecidableEq

/-- One entry of the site iteration: the class info, depth and site record
delivered by the external `site_iter`, plus the raw payload bytes read from
the site's object stream. -/
structure SiteRec where
  ctrl_class : FormEmbeddedActiveXControl
  depth : Nat
  ole_site : OleSiteConcrete
  data : Bytes
deriving Repr, DecidableEq

/-- `SiteInfo` (site metadata paired with each control, src/lib.rs:191-198). -/
structure SiteInfo where
  id : Nat
  depth : Nat
  pos : Position
  tooltip : RString
deriving Repr, DecidableEq

/-- The `Control` tagged union (src/core.rs via src/lib.rs:170-190). -/
inductive Control where
  | schGrid (g : SchGrid)
  | polyline (p : Polyline)
  | label (l : Label)
  | unknown (clsid : Uuid)
deriving Repr, DecidableEq

/-- Outcome of `schema_form`: a value, a propagated error (the `?`
operator), or a Rust panic. -/
inductive LOut (α : Type) where
  | ok (val : α)
  | err
  | panicked
deriving Repr, DecidableEq

/-- Sequencing of orchestrator outcomes (the `?` operator on the
`Result`-returning body of `schema_form`). -/
def LOut.bind {α β : Type} : LOut α → (α → LOut β) → LOut β
  | .ok v, f => f v
  | .err, _ => .err
  | .panicked, _ => .panicked

@[simp]
theorem lout_bind_ok {α β : Type} (v : α) (f : α → LOut β) :
    LOut.bind (.ok v) f = f v := rfl

@[simp]
theorem lout_bind_err {α β : Type} (f : α → LOut β) :
    LOut.bind (.err : LOut α) f = .err := rfl

@[simp]
theorem lout_bind_panicked {α β : Type} (f : α → LOut β) :
    LOut.bind (.panicked : LOut α) f = .panicked := rfl

theorem lout_bind_eq_ok {α β : Type} {m : LOut α} {f : α → LOut β} {b : β} :
    LOut.bind m f = .ok b ↔ ∃ a, m = .ok a ∧ f a = .ok b := by
  cases m with
  | ok a =>
    simp only [lout_bind_ok]
    constructor
    · intro h; exact ⟨a, rfl, h⟩
    · rintro ⟨a2, h1, h2⟩
      cases h1
      exact h2
  | err => simp [LOut.bind]
  | panicked => simp [LOut.bind]

/-- Lift one site's nom parse result into the orchestrator outcome: the
`?` operator turns any parse error into an early return of `schema_form`. -/
def dispatchResult {α : Type} (r : PResult α) (f : α → Control) : LOut Control :=
  match r with
  | .ok _ v => .ok (f v)
  | .fail => .err
  | .panicked => .panicked

/-- The per-site CLSID dispatch of `schema_form` (src/lib.rs:170-190):
the three known CLSIDs go to their decoders (whose failure aborts via `?`),
every other CLSID becomes `Control::Unknown`. -/
def dispatch_control (clsid : Uuid) (data : Bytes) : LOut Control :=
  if clsid = CLSID_SCHGRID then dispatchResult (parse_sch_grid data) Control.schGrid
  else if clsid = CLSID_POLYLINE then dispatchResult (parse_polyline data) Control.polyline
  else if clsid = CLSID_DDSLABEL then dispatchResult (parse_label data) Control.label
  else .ok (.unknown clsid)

/-- The site metadata recorded with each decoded control
(src/lib.rs:191-199). -/
def siteInfoOf (s : SiteRec) : SiteInfo :=
  ⟨s.ole_site.id, s.depth, s.ole_site.site_position, s.ole_site.control_tip_text⟩

/-- Model of the site loop of `schema_form` (src/lib.rs:151-203): iterate
the externally supplied sites in order; a cached control class hits
`unimplemented!` (panic); each site's payload is dispatched by CLSID, a
parse failure aborting the whole call through `?`; on success the
`(SiteInfo, Control)` pairs are accumulated in order. The `FormControl`
returned alongside the list and the stream I/O are external concerns
elided here. -/
def schema_form : List SiteRec → LOut (List (SiteInfo × Control))
  | [] => .ok []
  | s :: sites =>
    match s.ctrl_class with
    | .controlCached _ => .panicked
    | .controlNonCached clsid =>
      LOut.bind (dispatch_control clsid s.data) fun c =>
        LOut.bind (schema_form sites) fun res =>
          .ok ((siteInfoOf s, c) :: res)

/-- Unfolding `schema_form` on a site whose class is a cached reference:
the `unimplemented!` arm panics. -/
theorem schema_form_cons_cached (s : SiteRec) (sites : List SiteRec)
    (idx : Nat) (hc : s.ctrl_class = .controlCached idx) :
    schema_form (s :: sites) = .panicked := by
  obtain ⟨cc, d, os, data⟩ := s
  cases hc
  rfl

/-- Unfolding `schema_form` on a site with a non-cached class. -/
theorem schema_form_cons_nonCached (s : SiteRec) (sites : List SiteRec)
    (clsid : Uuid) (hc : s.ctrl_class = .controlNonCached clsid) :
    schema_form (s :: sites) =
      LOut.bind (dispatch_control clsid s.data) fun c =>
        LOut.bind (schema_form sites) fun res =>
          .ok ((siteInfoOf s, c) :: res) := by
  obtain ⟨cc, d, os, data⟩ := s
  cases hc
  rfl

/-- C1 (amended): when `schema_form` returns at all, it returns one result
per site; a site with an unrecognized CLSID is isolated — it becomes
`Control::Unknown` and decoding of the remaining sites proceeds
unaffected — but a decode failure of a known-typed site's payload (here: a
SchGrid site) aborts the whole `schema_form` call with a single error
instead of collecting per-site errors. -/
theorem schema_form_per_site :
    (∀ (sites : List SiteRec) (res : List (SiteInfo × Control)),
      schema_form sites = .ok res → res.length = sites.length) ∧
    (∀ (s : SiteRec) (sites : List SiteRec) (clsid : Uuid),
      s.ctrl_class = .controlNonCached clsid →
      clsid ≠ CLSID_SCHGRID → clsid ≠ CLSID_POLYLINE → clsid ≠ CLSID_DDSLABEL →
      schema_form (s :: sites) =
        LOut.bind (schema_form sites) fun res =>
          .ok ((siteInfoOf s, Control.unknown clsid) :: res)) ∧
    (∀ (s : SiteRec) (sites : List SiteRec),
      s.ctrl_class = .controlNonCached CLSID_SCHGRID →
      parse_sch_grid s.data = .fail →
      schema_form (s :: sites) = .err) := by
  refine ⟨?_, ?_, ?_⟩
  · intro sites
    induction sites with
    | nil =>
      intro res h
      rw [show schema_form [] = .ok [] from rfl] at h
      cases h
      rfl
    | cons s sites ih =>
      intro res h
      cases hcc : s.ctrl_class with
      | controlCached idx =>
        rw [schema_form_cons_cached s sites idx hcc] at h
        cases h
      | controlNonCached clsid =>
        rw [schema_form_cons_nonCached s sites clsid hcc] at h
        rw [lout_bind_eq_ok] at h
        obtain ⟨c, _hd, h⟩ := h
        rw [lout_bind_eq_ok] at h
        obtain ⟨res2, hrec, h⟩ := h
        have hlen := ih res2 hrec
        cases h
        simp [hlen]
  · intro s sites clsid hcc h1 h2 h3
    rw [schema_form_cons_nonCached s sites clsid hcc]
    have hd : dispatch_control clsid s.data = .ok (.unknown clsid) := by
      unfold dispatch_control
      rw [if_neg h1, if_neg h2, if_neg h3]
    rw [hd, lout_bind_ok]
  · intro s sites hcc hfail
    rw [schema_form_cons_nonCached s sites CLSID_SCHGRID hcc]
    have hd : dispatch_control CLSID_SCHGRID s.data = .err := by
      unfold dispatch_control
      rw [if_pos rfl, hfail]
      rfl
    rw [hd, lout_bind_err]

/-- A site whose class table entry is the SchGrid CLSID but whose payload
is empty (so its decode fails). -/
def badGridSite : SiteRec :=
  ⟨.controlNonCached CLSID_SCHGRID, 0, ⟨1, 0, ⟨0, 0⟩, []⟩, []⟩

/-- A CLSID matching none of the three known control classes. -/
def unknownClsid : Uuid := ⟨0, 0, 0, [0, 0, 0, 0, 0, 0, 0, 0]⟩

/-- A site with an unrecognized CLSID and empty payload. -/
def unknownSite : SiteRec :=
  ⟨.controlNonCached unknownClsid, 0, ⟨2, 0, ⟨0, 0⟩, []⟩, []⟩

/-- C1 counterexample: with a malformed SchGrid site followed by a
perfectly decodable unknown site, `schema_form` returns a single error and
no result for the other site — even though the other site alone decodes
fine. One malformed site does abort the overall decode. -/
theorem schema_form_malformed_site_aborts :
    schema_form [badGridSite, unknownSite] = .err ∧
    schema_form [unknownSite]
      = .ok [(siteInfoOf unknownSite, .unknown unknownClsid)] := ⟨rfl, rfl⟩

/-- Witness: the three per-site conclusions at concrete site lists. -/
theorem schema_form_per_site_witness :
    ([(siteInfoOf unknownSite, Control.unknown unknownClsid)].length
      = [unknownSite].length) ∧
    (schema_form [unknownSite] =
      LOut.bind (schema_form []) fun res =>
        .ok ((siteInfoOf unknownSite, Control.unknown unknownClsid) :: res)) ∧
    schema_form [badGridSite] = .err :=
  ⟨schema_form_per_site.1 [unknownSite]
      [(siteInfoOf unknownSite, Control.unknown unknownClsid)] rfl,
   schema_form_per_site.2.1 unknownSite [] unknownClsid rfl
      (by decide) (by decide) (by decide),
   schema_form_per_site.2.2 badGridSite [] rfl rfl⟩

/-! The relationship-caption text parser (src/parser.rs:59-67), over
`&str` input modelled as a list of characters. -/

/-- Model of nom `tag` on string input: match the literal and return the
remaining characters, otherwise a nom error (`none`). -/
def tagStr (p s : List Char) : Option (List Char) :=
  if startsWithL p s then some (s.drop p.length) else none

/-- Model of nom `take_until`: return the characters before the first
occurrence of the pattern and the remainder starting at that occurrence; if
the pattern never occurs, a nom error (`none`). -/
def takeUntil (p : List Char) : List Char → Option (List Char × List Char)
  | [] => if startsWithL p ([] : List Char) then some ([], []) else none
  | c :: cs =>
    if startsWithL p (c :: cs) then some ([], c :: cs)
    else (takeUntil p cs).map fun x => (c :: x.1, x.2)

/-- Model of `parse_relationship` (src/parser.rs:59-67): tag
"Relationship '", take until the quote (name), tag "' between '", take
until the quote (from), tag "' and '", take until the quote (to); returns
the remaining input and the three captured strings. All combinators are
pure — there is no panicking construct in this function. -/
def parse_relationship (input : List Char) :
    Option (List Char × (List Char × List Char × List Char)) :=
  (tagStr ("Relationship '".toList) input).bind fun i1 =>
    (takeUntil ("'".toList) i1).bind fun nx =>
      (tagStr ("' between '".toList) nx.2).bind fun i3 =>
        (takeUntil ("'".toList) i3).bind fun fx =>
          (tagStr ("' and '".toList) fx.2).bind fun i5 =>
            (takeUntil ("'".toList) i5).map fun tx => (tx.2, (nx.1, fx.1, tx.1))

/-- Substring occurrence test: does the pattern start at some position? -/
def containsSeq (p : List Char) : List Char → Bool
  | [] => startsWithL p []
  | c :: cs => startsWithL p (c :: cs) || containsSeq p cs

theorem tagStr_eq_some {p s r : List Char} (h : tagStr p s = some r) :
    startsWithL p s = true ∧ r = s.drop p.length := by
  unfold tagStr at h
  by_cases hp : startsWithL p s = true
  · rw [if_pos hp] at h
    cases h
    exact ⟨hp, rfl⟩
  · rw [if_neg hp] at h
    cases h

theorem takeUntil_eq_some (p : List Char) :
    ∀ (s : List Char) (x : List Char × List Char), takeUntil p s = some x →
      (∃ k, s.drop k = x.2) ∧ startsWithL p x.2 = true := by
  intro s
  induction s with
  | nil =>
    intro x h
    unfold takeUntil at h
    by_cases hp : startsWithL p ([] : List Char) = true
    · rw [if_pos hp] at h
      cases h
      exact ⟨⟨0, rfl⟩, hp⟩
    · rw [if_neg hp] at h
      cases h
  | cons c cs ih =>
    intro x h
    unfold takeUntil at h
    by_cases hp : startsWithL p (c :: cs) = true
    · rw [if_pos hp] at h
      cases h
      exact ⟨⟨0, rfl⟩, hp⟩
    · rw [if_neg hp] at h
      rw [Option.map_eq_some'] at h
      obtain ⟨y, hy, hx⟩ := h
      obtain ⟨⟨k, hk⟩, hs⟩ := ih y hy
      cases hx
      exact ⟨⟨k + 1, by simpa using hk⟩, hs⟩

theorem containsSeq_of_drop (p : List Char) :
    ∀ (k : Nat) (s b : List Char), s.drop k = b → startsWithL p b = true →
      containsSeq p s = true := by
  intro k
  induction k with
  | zero =>
    intro s b hd hs
    simp only [List.drop_zero] at hd
    cases hd
    cases s with
    | nil => simpa [containsSeq] using hs
    | cons c cs => simp [containsSeq, hs]
  | succ k ih =>
    intro s b hd hs
    cases s with
    | nil =>
      simp only [List.drop_nil] at hd
      cases hd
      simpa [containsSeq] using hs
    | cons c cs =>
      simp only [List.drop_succ_cons] at hd
      simp [containsSeq, ih cs b hd hs]

theorem drop_trans {s b c : List Char} (h1 : ∃ k, s.drop k = b)
    (h2 : ∃ k, b.drop k = c) : ∃ k, s.drop k = c := by
  obtain ⟨k1, rfl⟩ := h1
  obtain ⟨k2, rfl⟩ := h2
  exact ⟨k1 + k2, (List.drop_drop k2 k1 s).symm⟩

/-- C9: `parse_relationship` maps the caption
"Relationship 'FK_A_B' between 'A' and 'B'" to the triple
(name FK_A_B, from A, to B); and on any input string in which the
separator "' and '" does not occur, it returns a parse error (`none`) —
there is no panicking construct in this pure parser, and the result is an
ordinary nom error value. -/
theorem parse_relationship_spec :
    parse_relationship ("Relationship 'FK_A_B' between 'A' and 'B'".toList)
      = some ("'".toList,
          ("FK_A_B".toList, "A".toList, "B".toList)) ∧
    ∀ s : List Char, containsSeq ("' and '".toList) s = false →
      parse_relationship s = none := by
  constructor
  · rfl
  · intro s h
    cases hp : parse_relationship s with
    | none => rfl
    | some v =>
      exfalso
      unfold parse_relationship at hp
      rw [Option.bind_eq_some] at hp
      obtain ⟨i1, h1, hp⟩ := hp
      rw [Option.bind_eq_some] at hp
      obtain ⟨nx, h2, hp⟩ := hp
      rw [Option.bind_eq_some] at hp
      obtain ⟨i3, h3, hp⟩ := hp
      rw [Option.bind_eq_some] at hp
      obtain ⟨fx, h4, hp⟩ := hp
      rw [Option.bind_eq_some] at hp
      obtain ⟨i5, h5, _hp⟩ := hp
      obtain ⟨hsep, _⟩ := tagStr_eq_some h5
      have hd1 : ∃ k, s.drop k = i1 := ⟨_, (tagStr_eq_some h1).2.symm⟩
      have hd2 : ∃ k, i1.drop k = nx.2 := (takeUntil_eq_some _ i1 nx h2).1
      have hd3 : ∃ k, nx.2.drop k = i3 := ⟨_, (tagStr_eq_some h3).2.symm⟩
      have hd4 : ∃ k, i3.drop k = fx.2 := (takeUntil_eq_some _ i3 fx h4).1
      have hd : ∃ k, s.drop k = fx.2 :=
        drop_trans (drop_trans (drop_trans hd1 hd2) hd3) hd4
      obtain ⟨k, hk⟩ := hd
      have := containsSeq_of_drop ("' and '".toList) k s fx.2 hk hsep
      rw [h] at this
      cases this

/-- Witness: a caption missing the "' and '" separator is rejected. -/
theorem parse_relationship_spec_witness :
    parse_relationship ("Relationship 'X' between 'A".toList) = none :=
  parse_relationship_spec.2 ("Relationship 'X' between 'A".toList) (by decide)

end Sysdiagram
